import Mathlib

set_option linter.unusedVariables false

/-!
Shallow embedding of the reactive store engine (`StoreService`) and its
todo specialization (`TodoService`) from `src/src/app/services/todo.service.ts`.

Modelling conventions:
- The id argument of `get(id)` and the result of `uniqueId()` are JavaScript
  values compared with strict equality; we model the relevant subset
  (null, undefined, string, number) as `JSVal`, with template-literal
  interpolation `JSVal.interp`.
- The engine's observable state (cache, selection, flags) plus the event
  streams (modelled as growing event logs) and the issued HTTP requests are
  collected in `StoreState`.
- Each remote-backed method is split into its synchronous part (the code that
  runs before the HTTP observable responds: cache short-circuit, flag set,
  request issuance) and its response handler (the `catchError`/`finalize`/
  `subscribe` pipeline), which takes the outcome as an `Except`.
- For the aliasing behaviour of the `items` setter and `replaceOrAdd` we also
  keep an emission-level model (`replaceOrAddEmit` etc.) that records the
  contents of every array object ever handed to subscribers of the items
  `BehaviorSubject`, in emission order; the subject currently holds the last
  entry. JavaScript element assignment and `push` mutate that last array in
  place, while `filter`, `concat` and the setter's spread copy allocate fresh
  arrays.
-/

/-- JavaScript values that can flow through the id positions of the store:
`uniqueId()` returns a string or a number, and `get(id)` may also receive
null or undefined. Strict equality on these primitives is structural. -/
inductive JSVal where
  | null
  | undefined
  | str (s : String)
  | num (n : Int)
deriving DecidableEq

/-- Template-literal interpolation of a `JSVal`, as in the source's
URL construction (a null interpolates to "null", an undefined to
"undefined", numbers to their decimal form). -/
def JSVal.interp : JSVal → String
  | .null => "null"
  | .undefined => "undefined"
  | .str s => s
  | .num n => toString n

/-- Store settings from `store-settings.model`: resource URL and display name. -/
structure StoreSettings where
  url : String
  itemName : String
deriving DecidableEq

/-- HTTP method of an issued request. -/
inductive HttpMethod where
  | get
  | post
  | put
  | delete
deriving DecidableEq

/-- An HTTP request issued by the engine. -/
structure Request where
  method : HttpMethod
  url : String
deriving DecidableEq

/-- Observable state of a `StoreService` instance: the cache (`items`
subject value), selection, in-flight flags, the log of issued requests, and
the event logs of the subjects that back the error/success/no-result
streams. -/
structure StoreState (T : Type) (ε : Type) where
  items : List T
  selected : Option T
  loading : Bool
  deleting : Bool
  requests : List Request
  loadErrorEvents : List ε
  getErrorEvents : List ε
  createSuccessEvents : List T
  updateSuccessEvents : List T
  deleteSuccessEvents : List T
  noLoadResultsEvents : Nat
deriving DecidableEq

namespace Store

variable {T ε : Type} [DecidableEq T]

/-- Initial state: all subjects start empty/false (the `BehaviorSubject`
initial values), no requests issued, no events fired. -/
def StoreState.init : StoreState T ε :=
  { items := []
    selected := none
    loading := false
    deleting := false
    requests := []
    loadErrorEvents := []
    getErrorEvents := []
    createSuccessEvents := []
    updateSuccessEvents := []
    deleteSuccessEvents := []
    noLoadResultsEvents := 0 }

/-- Effect of `replaceOrAdd(item)` on the cache contents: find the index of
the first entry whose `uniqueId()` strictly equals the item's; if found
(`existingIndex >= 0`) overwrite at that index, otherwise push at the end. -/
def replaceOrAdd (uid : T → JSVal) (l : List T) (item : T) : List T :=
  match l.findIdx? (fun i => uid i == uid item) with
  | some existingIndex => l.set existingIndex item
  | none => l ++ [item]

/-- Effect of `remove(val)` on the cache contents: keep the entries whose
`uniqueId()` differs from `val.uniqueId()` (`Array.filter` with `!==`). -/
def removeList (uid : T → JSVal) (l : List T) (val : T) : List T :=
  l.filter (fun i => !(uid i == uid val))

/-- The list-request URL built by `load`. -/
def loadUrl (settings : StoreSettings) (filter order : String) (page pageSize : Int) : String :=
  settings.url ++ "?filter=" ++ filter ++ "&order=" ++ order ++ "&page=" ++ toString page
    ++ "&pageSize=" ++ toString pageSize

/-- Synchronous part of `load`: if `useCache` and the cache is non-empty,
return with no other effect; otherwise set `loading`, build the query URL and
issue the GET request. -/
def load (settings : StoreSettings) (filter order : String) (page pageSize : Int)
    (useCache append : Bool) (s : StoreState T ε) : StoreState T ε :=
  if useCache ∧ s.items.length > 0 then s
  else
    { s with
      loading := true
      requests := s.requests ++ [⟨HttpMethod.get, loadUrl settings filter order page pageSize⟩] }

/-- Response handler of `load`: on error, emit on the load-error stream and
(via `finalize`) clear `loading`; on success, replace or append the cache,
fire the no-load-results event when the result is empty, then clear
`loading`. -/
def loadResponse (append : Bool) (outcome : Except ε (List T)) (s : StoreState T ε) :
    StoreState T ε :=
  match outcome with
  | .error e =>
    { s with loadErrorEvents := s.loadErrorEvents ++ [e], loading := false }
  | .ok res =>
    let s1 := if append then { s with items := s.items ++ res } else { s with items := res }
    let s2 :=
      if res.length = 0 then { s1 with noLoadResultsEvents := s1.noLoadResultsEvents + 1 }
      else s1
    { s2 with loading := false }

/-- Synchronous part of `get(id)`: an id strictly equal to null clears the
selection and returns; any other id (including undefined) sets `loading` and
issues a GET to the resource URL concatenated with the interpolated id. -/
def get (settings : StoreSettings) (id : JSVal) (s : StoreState T ε) : StoreState T ε :=
  if id = JSVal.null then { s with selected := none }
  else
    { s with
      loading := true
      requests := s.requests ++ [⟨HttpMethod.get, settings.url ++ id.interp⟩] }

/-- Response handler of `get`: on error, emit on the get-error stream and
clear `loading`; on success, merge the result into the cache, select it, and
clear `loading`. -/
def getResponse (uid : T → JSVal) (outcome : Except ε T) (s : StoreState T ε) :
    StoreState T ε :=
  match outcome with
  | .error e => { s with getErrorEvents := s.getErrorEvents ++ [e], loading := false }
  | .ok res =>
    { s with items := replaceOrAdd uid s.items res, selected := some res, loading := false }

/-- Synchronous part of `add(val)`: set `loading` and issue a POST to the
resource URL (request bodies are not modelled, so `val` is unused here). -/
def add (settings : StoreSettings) (val : T) (s : StoreState T ε) : StoreState T ε :=
  { s with
    loading := true
    requests := s.requests ++ [⟨HttpMethod.post, settings.url⟩] }

/-- Response handler of `add`: on error, emit on the get-error stream and
clear `loading`; on success, merge the server-returned entity into the cache,
fire create-success with it, and clear `loading`. -/
def addResponse (uid : T → JSVal) (outcome : Except ε T) (s : StoreState T ε) :
    StoreState T ε :=
  match outcome with
  | .error e => { s with getErrorEvents := s.getErrorEvents ++ [e], loading := false }
  | .ok res =>
    { s with
      items := replaceOrAdd uid s.items res
      createSuccessEvents := s.createSuccessEvents ++ [res]
      loading := false }

/-- Synchronous part of `update(val)`: set `loading`, resolve the unique id,
and issue a PUT to the resource URL concatenated with the id. -/
def update (uid : T → JSVal) (settings : StoreSettings) (val : T) (s : StoreState T ε) :
    StoreState T ε :=
  { s with
    loading := true
    requests := s.requests ++ [⟨HttpMethod.put, settings.url ++ (uid val).interp⟩] }

/-- Response handler of `update`: on error, emit on the get-error stream and
clear `loading`; on success, merge the server-returned entity into the cache,
fire update-success with it, and clear `loading`. -/
def updateResponse (uid : T → JSVal) (outcome : Except ε T) (s : StoreState T ε) :
    StoreState T ε :=
  match outcome with
  | .error e => { s with getErrorEvents := s.getErrorEvents ++ [e], loading := false }
  | .ok res =>
    { s with
      items := replaceOrAdd uid s.items res
      updateSuccessEvents := s.updateSuccessEvents ++ [res]
      loading := false }

/-- Synchronous part of `delete(val)`: set `deleting`, resolve the unique id,
and issue a DELETE to the resource URL concatenated with the id. -/
def delete (uid : T → JSVal) (settings : StoreSettings) (val : T) (s : StoreState T ε) :
    StoreState T ε :=
  { s with
    deleting := true
    requests := s.requests ++ [⟨HttpMethod.delete, settings.url ++ (uid val).interp⟩] }

/-- Response handler of `delete`: on error, emit on the shared get-error
stream and (via `finalize`) clear `deleting`; on success, remove the original
argument from the cache by id, fire delete-success with it, and clear
`deleting`. -/
def deleteResponse (uid : T → JSVal) (val : T) (outcome : Except ε Unit)
    (s : StoreState T ε) : StoreState T ε :=
  match outcome with
  | .error e => { s with getErrorEvents := s.getErrorEvents ++ [e], deleting := false }
  | .ok _ =>
    { s with
      items := removeList uid s.items val
      deleteSuccessEvents := s.deleteSuccessEvents ++ [val]
      deleting := false }

/-- Effect of `select(val)`: set the selection, no other state change. -/
def select (val : Option T) (s : StoreState T ε) : StoreState T ε :=
  { s with selected := val }

/-- Effect of `getCached(id)`: first cached entry whose `uniqueId()` strictly
equals the given id. -/
def getCached (uid : T → JSVal) (id : JSVal) (s : StoreState T ε) : Option T :=
  s.items.find? (fun i => uid i == id)

/-- Effect of `findCached(predicate)`: first cached entry satisfying the
predicate. -/
def findCached (predicate : T → Bool) (s : StoreState T ε) : Option T :=
  s.items.find? (fun i => predicate i)

/-- Effect of `clearCached()`: empty the cache. -/
def clearCached (s : StoreState T ε) : StoreState T ε :=
  { s with items := [] }

/-- State-level `replaceOrAdd` (the protected method as a cache mutation). -/
def replaceOrAddM (uid : T → JSVal) (item : T) (s : StoreState T ε) : StoreState T ε :=
  { s with items := replaceOrAdd uid s.items item }

/-- State-level `remove` (the protected method as a cache mutation). -/
def remove (uid : T → JSVal) (val : T) (s : StoreState T ε) : StoreState T ε :=
  { s with items := removeList uid s.items val }

/-- Recursive reformulation of `replaceOrAdd`, equivalent to the
findIdx-based source form (proved below); replace the first entry with a
matching id, or append at the end. Used for induction proofs. -/
def replaceOrAddRec (uid : T → JSVal) (l : List T) (item : T) : List T :=
  match l with
  | [] => [item]
  | x :: xs => if uid x = uid item then item :: xs else x :: replaceOrAddRec uid xs item

/-- The cache invariant claimed by the spec: no two cached entries share a
`uniqueId()` value. -/
def UniqueById (uid : T → JSVal) (l : List T) : Prop :=
  l.Pairwise (fun a b => uid a ≠ uid b)

instance (uid : T → JSVal) (l : List T) : Decidable (UniqueById uid l) :=
  inferInstanceAs (Decidable (l.Pairwise _))

/-!
Emission-level model of the items `BehaviorSubject`, for aliasing claims.
`em : List (List T)` records the contents of every array object ever passed
to `next` (and hence handed to subscribers and returned by `getValue`), in
emission order. The subject currently holds the last entry; it starts as
`[[]]` (the initial empty array). The `items` setter always allocates a fresh
array (`[...val]`) and appends it, so previously emitted entries stay as they
were — except where the source mutates the current array in place before
calling the setter.
-/

/-- The `items` setter: emit a fresh copy of `val`. -/
def emitItems (em : List (List T)) (val : List T) : List (List T) := em ++ [val]

/-- Contents of the array the subject currently holds (`getValue`). -/
def currentItems (em : List (List T)) : List T := em.getLast?.getD []

/-- Emission-level `replaceOrAdd(item)`: `this.items[existingIndex] = item`
and `this.items.push(item)` mutate the current — that is, the most recently
emitted — array in place, after which `this.items = this.items` emits a
fresh copy of it. -/
def replaceOrAddEmit (uid : T → JSVal) (item : T) (em : List (List T)) : List (List T) :=
  match (currentItems em).findIdx? (fun i => uid i == uid item) with
  | some existingIndex =>
    emitItems (em.dropLast ++ [(currentItems em).set existingIndex item])
      ((currentItems em).set existingIndex item)
  | none =>
    emitItems (em.dropLast ++ [currentItems em ++ [item]])
      (currentItems em ++ [item])

/-- Emission-level `remove(val)`: `Array.filter` allocates a new array, the
current array is not touched, and the setter emits a fresh copy. -/
def removeEmit (uid : T → JSVal) (val : T) (em : List (List T)) : List (List T) :=
  emitItems em (removeList uid (currentItems em) val)

/-- Emission-level `clearCached()`: the setter emits a fresh empty array. -/
def clearCachedEmit (em : List (List T)) : List (List T) :=
  emitItems em []

/-- Emission-level `load` success with `append=false`: the setter emits a
fresh copy of the response. -/
def loadReplaceEmit (res : List T) (em : List (List T)) : List (List T) :=
  emitItems em res

/-- Emission-level `load` success with `append=true`: `Array.concat`
allocates a new array, and the setter emits a fresh copy of it. -/
def loadAppendEmit (res : List T) (em : List (List T)) : List (List T) :=
  emitItems em (currentItems em ++ res)

end Store

/-- The concrete entity of the specialization: `Todo` from
`todo.model.ts`. -/
structure Todo where
  id : Int
  completed : Bool
  text : String
deriving DecidableEq

/-- The identity capability of `Todo`: `uniqueId()` returns the numeric
`id` field. -/
def Todo.uniqueId (t : Todo) : JSVal := JSVal.num t.id

/-- Settings the `TodoService` constructor passes to the engine. -/
def todoSettings (apiUrl : String) : StoreSettings :=
  { url := apiUrl ++ "todo", itemName := "Todo" }

/-- State of a `TodoService` instance: the inherited engine state plus the
`nextId` counter (initialised to 1). -/
structure TodoServiceState (ε : Type) where
  store : StoreState Todo ε
  nextId : Int
deriving DecidableEq

namespace TodoService

variable {ε : Type}

/-- Initial `TodoService` state: fresh engine state and `nextId = 1`. -/
def init : TodoServiceState ε :=
  { store := Store.StoreState.init, nextId := 1 }

/-- Effect of `getNextId()`: pre-increment `nextId` and return the
incremented value. -/
def getNextId (s : TodoServiceState ε) : Int × TodoServiceState ε :=
  (s.nextId + 1, { s with nextId := s.nextId + 1 })

/-- Effect of `addTodo(todo)`: assign the next locally generated id to the
todo, upsert it into the cache, and fire create-success with it. -/
def addTodo (todo : Todo) (s : TodoServiceState ε) : TodoServiceState ε :=
  let r := getNextId s
  let assigned : Todo := { todo with id := r.1 }
  let st := { r.2.store with items := Store.replaceOrAdd Todo.uniqueId r.2.store.items assigned }
  { r.2 with store := { st with createSuccessEvents := st.createSuccessEvents ++ [assigned] } }

/-- Effect of `updateTodo(todo)`: upsert into the cache and fire
update-success. -/
def updateTodo (todo : Todo) (s : TodoServiceState ε) : TodoServiceState ε :=
  let st := { s.store with items := Store.replaceOrAdd Todo.uniqueId s.store.items todo }
  { s with store := { st with updateSuccessEvents := st.updateSuccessEvents ++ [todo] } }

/-- Effect of `completeTodo(todo)`: remove the todo from the cache. -/
def completeTodo (todo : Todo) (s : TodoServiceState ε) : TodoServiceState ε :=
  { s with store := Store.remove Todo.uniqueId todo s.store }

end TodoService

/-- Concrete todo used in witness instantiations. -/
def todoA : Todo := { id := 1, completed := false, text := "a" }

/-- Concrete todo used in witness instantiations. -/
def todoB : Todo := { id := 2, completed := false, text := "b" }

/-- A todo with the same id as `todoA` but different text. -/
def todoA2 : Todo := { id := 1, completed := false, text := "a2" }

/-- Concrete settings used in witness instantiations. -/
def exSettings : StoreSettings := todoSettings "api/"

/-- A store state whose cache holds one todo. -/
def exState1 : StoreState Todo Unit := { Store.StoreState.init with items := [todoA] }

/-- A store state whose cache holds two todos with distinct ids. -/
def exState2 : StoreState Todo Unit := { Store.StoreState.init with items := [todoA, todoB] }

/-!
Theorems. Each claim has one theorem; theorems with hypotheses have a
closed witness instantiating them at concrete inputs.
-/

/-- C4: every load call with useCache=true made while the cache is non-empty
returns immediately: no remote request is issued, the loading flag is not
toggled, and the whole state — in particular the cache — is exactly
unchanged. -/
theorem C4_load_useCache_nonempty_noop {T ε : Type} (settings : StoreSettings)
    (filter order : String) (page pageSize : Int) (append : Bool)
    (s : StoreState T ε) (h : s.items.length > 0) :
    Store.load settings filter order page pageSize true append s = s := by
  simp [Store.load, h]

/-- Witness for C4 at a concrete non-empty state. -/
theorem C4_witness :
    exState1.items.length > 0 ∧
    Store.load exSettings "" "" 0 0 true false exState1 = exState1 :=
  ⟨by decide, C4_load_useCache_nonempty_noop exSettings "" "" 0 0 false exState1 (by decide)⟩

/-- C5: a load with append=false whose response is the empty list replaces
the cache wholesale (the cache becomes empty whatever it held), fires the
no-load-results event in addition to the cache update, and clears the
loading flag. -/
theorem C5_load_replace_empty_result {T ε : Type} (s : StoreState T ε) :
    (Store.loadResponse false (Except.ok ([] : List T)) s).items = []
    ∧ (Store.loadResponse false (Except.ok ([] : List T)) s).noLoadResultsEvents
        = s.noLoadResultsEvents + 1
    ∧ (Store.loadResponse false (Except.ok ([] : List T)) s).loading = false := by
  simp [Store.loadResponse]

/-- C6: get(null) clears the selection and changes nothing else — no request
is issued, the loading flag is untouched, and the cache is unchanged. -/
theorem C6_get_null_clears_selection {T ε : Type} (settings : StoreSettings)
    (s : StoreState T ε) :
    Store.get settings JSVal.null s = { s with selected := none } := by
  simp [Store.get]

/-- C7: a delete whose remote call fails leaves the cache exactly unchanged,
resets the deleting flag to false, and fires exactly one error event — on
the shared get/create/update error stream — carrying the transport error
unmodified; no load-error or delete-success event fires and the selection is
untouched. -/
theorem C7_delete_failure_atomic {T ε : Type} (uid : T → JSVal)
    (settings : StoreSettings) (val : T) (e : ε) (s : StoreState T ε) :
    (Store.deleteResponse uid val (Except.error e)
        (Store.delete uid settings val s)).items = s.items
    ∧ (Store.deleteResponse uid val (Except.error e)
        (Store.delete uid settings val s)).deleting = false
    ∧ (Store.deleteResponse uid val (Except.error e)
        (Store.delete uid settings val s)).getErrorEvents = s.getErrorEvents ++ [e]
    ∧ (Store.deleteResponse uid val (Except.error e)
        (Store.delete uid settings val s)).loadErrorEvents = s.loadErrorEvents
    ∧ (Store.deleteResponse uid val (Except.error e)
        (Store.delete uid settings val s)).deleteSuccessEvents = s.deleteSuccessEvents
    ∧ (Store.deleteResponse uid val (Except.error e)
        (Store.delete uid settings val s)).selected = s.selected := by
  simp [Store.delete, Store.deleteResponse]

/-- C10: get(undefined) does not clear the selection and does not return
early: it sets the loading flag and issues a GET request to the resource URL
concatenated with the interpolated id ("undefined"); in general every id
other than strictly-null takes this network path. -/
theorem C10_get_undefined_not_null_path {T ε : Type} (settings : StoreSettings)
    (s : StoreState T ε) :
    (Store.get settings JSVal.undefined s).selected = s.selected
    ∧ (Store.get settings JSVal.undefined s).loading = true
    ∧ (Store.get settings JSVal.undefined s).requests
        = s.requests ++ [⟨HttpMethod.get, settings.url ++ "undefined"⟩]
    ∧ ∀ id : JSVal, id ≠ JSVal.null →
        Store.get settings id s
          = { s with
              loading := true
              requests := s.requests ++ [⟨HttpMethod.get, settings.url ++ JSVal.interp id⟩] } := by
  refine ⟨?_, ?_, ?_, fun id hid => ?_⟩
  · simp [Store.get, JSVal.interp]
  · simp [Store.get]
  · simp [Store.get, JSVal.interp]
  · simp [Store.get, hid]

/-- Witness for C10 at a concrete state and a concrete non-null id. -/
theorem C10_witness :
    (Store.get exSettings JSVal.undefined exState1).selected = exState1.selected
    ∧ Store.get exSettings (JSVal.num 7) exState1
        = { exState1 with
            loading := true
            requests := exState1.requests
              ++ [⟨HttpMethod.get, exSettings.url ++ JSVal.interp (JSVal.num 7)⟩] } :=
  ⟨(C10_get_undefined_not_null_path exSettings exState1).1,
   (C10_get_undefined_not_null_path exSettings exState1).2.2.2 (JSVal.num 7) (by decide)⟩

/-- C8: every load/get/add/update call that issues a remote request sets the
loading flag at issuance, and the response handler resets it to false on
both the success and the failure outcome. -/
theorem C8_loading_flag_guard {T ε : Type} (uid : T → JSVal) (settings : StoreSettings)
    (filter order : String) (page pageSize : Int) (useCache append : Bool) (id : JSVal)
    (v w : T) (outL : Except ε (List T)) (outG outA outU : Except ε T)
    (s1 s2 s3 s4 : StoreState T ε)
    (hload : useCache = false ∨ s1.items = [])
    (hid : id ≠ JSVal.null) :
    (Store.load settings filter order page pageSize useCache append s1).loading = true
    ∧ (Store.loadResponse append outL s1).loading = false
    ∧ (Store.get settings id s2).loading = true
    ∧ (Store.getResponse uid outG s2).loading = false
    ∧ (Store.add settings v s3).loading = true
    ∧ (Store.addResponse uid outA s3).loading = false
    ∧ (Store.update uid settings w s4).loading = true
    ∧ (Store.updateResponse uid outU s4).loading = false := by
  refine ⟨?_, ?_, ?_, ?_, rfl, ?_, rfl, ?_⟩
  · rcases hload with h | h <;> simp [Store.load, h]
  · cases outL <;> rfl
  · simp [Store.get, hid]
  · cases outG <;> rfl
  · cases outA <;> rfl
  · cases outU <;> rfl

/-- Witness for C8 at concrete inputs, on both outcomes of a load and an
update. -/
theorem C8_witness :
    (Store.load exSettings "" "" 0 0 false false exState1).loading = true
    ∧ (Store.loadResponse false (Except.error ()) exState1).loading = false
    ∧ (Store.get exSettings (JSVal.num 1) exState1).loading = true
    ∧ (Store.updateResponse Todo.uniqueId (Except.ok todoA2) exState1).loading = false :=
  ⟨(C8_loading_flag_guard Todo.uniqueId exSettings "" "" 0 0 false false (JSVal.num 1)
      todoA todoA2 (Except.error ()) (Except.ok todoA) (Except.ok todoA) (Except.ok todoA2)
      exState1 exState1 exState1 exState1 (Or.inl rfl) (by decide)).1,
   (C8_loading_flag_guard Todo.uniqueId exSettings "" "" 0 0 false false (JSVal.num 1)
      todoA todoA2 (Except.error ()) (Except.ok todoA) (Except.ok todoA) (Except.ok todoA2)
      exState1 exState1 exState1 exState1 (Or.inl rfl) (by decide)).2.1,
   (C8_loading_flag_guard Todo.uniqueId exSettings "" "" 0 0 false false (JSVal.num 1)
      todoA todoA2 (Except.error ()) (Except.ok todoA) (Except.ok todoA) (Except.ok todoA2)
      exState1 exState1 exState1 exState1 (Or.inl rfl) (by decide)).2.2.1,
   (C8_loading_flag_guard Todo.uniqueId exSettings "" "" 0 0 false false (JSVal.num 1)
      todoA todoA2 (Except.error ()) (Except.ok todoA) (Except.ok todoA) (Except.ok todoA2)
      exState1 exState1 exState1 exState1 (Or.inl rfl) (by decide)).2.2.2.2.2.2.2⟩

/-- The findIdx-based `replaceOrAdd` agrees with its recursive
reformulation. -/
theorem replaceOrAdd_eq_rec {T : Type} (uid : T → JSVal) (l : List T) (item : T) :
    Store.replaceOrAdd uid l item = Store.replaceOrAddRec uid l item := by
  induction l with
  | nil => rfl
  | cons x xs ih =>
    unfold Store.replaceOrAdd Store.replaceOrAddRec
    rw [List.findIdx?_cons]
    by_cases h : uid x = uid item
    · simp [h]
    · have hb : (uid x == uid item) = false := by simp [h]
      rw [hb]
      simp only [Bool.false_eq_true, if_false, if_neg h]
      rw [List.findIdx?_succ]
      unfold Store.replaceOrAdd at ih
      cases hfi : xs.findIdx? (fun i => uid i == uid item) with
      | none =>
        rw [hfi] at ih
        have ih2 : xs ++ [item] = Store.replaceOrAddRec uid xs item := ih
        show x :: (xs ++ [item]) = x :: Store.replaceOrAddRec uid xs item
        rw [ih2]
      | some i =>
        rw [hfi] at ih
        have ih2 : xs.set i item = Store.replaceOrAddRec uid xs item := ih
        show x :: xs.set i item = x :: Store.replaceOrAddRec uid xs item
        rw [ih2]

/-- Pointwise equality of the two formulations, as a function equality. -/
theorem replaceOrAdd_funext {T : Type} (uid : T → JSVal) :
    Store.replaceOrAdd uid = Store.replaceOrAddRec uid :=
  funext fun l => funext fun item => replaceOrAdd_eq_rec uid l item

/-- Membership in the result of `replaceOrAddRec`: every element is either
the merged item or came from the original list. -/
theorem mem_of_mem_replaceOrAddRec {T : Type} (uid : T → JSVal) {l : List T}
    {item y : T} (hy : y ∈ Store.replaceOrAddRec uid l item) : y = item ∨ y ∈ l := by
  induction l with
  | nil => simpa [Store.replaceOrAddRec] using hy
  | cons x xs ih =>
    unfold Store.replaceOrAddRec at hy
    by_cases h : uid x = uid item
    · rw [if_pos h] at hy
      rcases List.mem_cons.1 hy with h1 | h1
      · exact Or.inl h1
      · exact Or.inr (List.mem_cons_of_mem _ h1)
    · rw [if_neg h] at hy
      rcases List.mem_cons.1 hy with h1 | h1
      · exact Or.inr (by simp [h1])
      · rcases ih h1 with h2 | h2
        · exact Or.inl h2
        · exact Or.inr (by simp [h2])

/-- `replaceOrAddRec` preserves identifier-uniqueness of the cache. -/
theorem uniqueById_replaceOrAddRec {T : Type} (uid : T → JSVal) {l : List T} (item : T)
    (h : Store.UniqueById uid l) :
    Store.UniqueById uid (Store.replaceOrAddRec uid l item) := by
  induction l with
  | nil => simp [Store.replaceOrAddRec, Store.UniqueById]
  | cons x xs ih =>
    rw [Store.UniqueById, List.pairwise_cons] at h
    obtain ⟨hx, hxs⟩ := h
    unfold Store.replaceOrAddRec
    by_cases hd : uid x = uid item
    · rw [if_pos hd, Store.UniqueById, List.pairwise_cons]
      exact ⟨fun y hy => hd ▸ hx y hy, hxs⟩
    · rw [if_neg hd, Store.UniqueById, List.pairwise_cons]
      refine ⟨fun y hy => ?_, ih hxs⟩
      rcases mem_of_mem_replaceOrAddRec uid hy with rfl | hmem
      · exact hd
      · exact hx y hmem

/-- On an identifier-unique cache, the merged item is the only entry of the
result sharing its identifier. -/
theorem filter_replaceOrAddRec_self {T : Type} (uid : T → JSVal) {l : List T} (item : T)
    (h : Store.UniqueById uid l) :
    (Store.replaceOrAddRec uid l item).filter (fun x => uid x == uid item) = [item] := by
  induction l with
  | nil => simp [Store.replaceOrAddRec]
  | cons x xs ih =>
    rw [Store.UniqueById, List.pairwise_cons] at h
    obtain ⟨hx, hxs⟩ := h
    unfold Store.replaceOrAddRec
    by_cases hd : uid x = uid item
    · rw [if_pos hd, List.filter_cons]
      simp only [beq_self_eq_true, if_true]
      have hnil : xs.filter (fun x => uid x == uid item) = [] := by
        rw [List.filter_eq_nil_iff]
        intro y hy
        simp only [beq_iff_eq]
        intro hc
        exact hx y hy (hd.trans hc.symm)
      rw [hnil]
    · rw [if_neg hd, List.filter_cons]
      have hb : (uid x == uid item) = false := by simp [hd]
      simp only [hb, Bool.false_eq_true, if_false]
      exact ih hxs

/-- Entries with an identifier other than the merged item's are untouched by
`replaceOrAddRec`. -/
theorem filter_replaceOrAddRec_other {T : Type} (uid : T → JSVal) {l : List T}
    (item : T) {v : JSVal} (hv : v ≠ uid item) :
    (Store.replaceOrAddRec uid l item).filter (fun x => uid x == v)
      = l.filter (fun x => uid x == v) := by
  induction l with
  | nil =>
    simp only [Store.replaceOrAddRec, List.filter_cons, List.filter_nil]
    have hb : (uid item == v) = false := by simp [Ne.symm hv]
    simp [hb]
  | cons x xs ih =>
    unfold Store.replaceOrAddRec
    by_cases hd : uid x = uid item
    · rw [if_pos hd, List.filter_cons, List.filter_cons]
      have h1 : (uid item == v) = false := by simp [Ne.symm hv]
      have h2 : (uid x == v) = false := by
        rw [hd]
        exact h1
      simp [h1, h2]
    · rw [if_neg hd, List.filter_cons, List.filter_cons]
      cases hxv : (uid x == v) <;> simp [hxv, ih]

/-- `UniqueById` is preserved along a fold of `replaceOrAddRec`. -/
theorem uniqueById_foldl_replaceOrAddRec {T : Type} (uid : T → JSVal) (calls : List T) :
    ∀ init : List T, Store.UniqueById uid init →
      Store.UniqueById uid (calls.foldl (Store.replaceOrAddRec uid) init) := by
  induction calls with
  | nil => intro init h; simpa using h
  | cons c cs ih =>
    intro init h
    exact ih _ (uniqueById_replaceOrAddRec uid c h)

/-- After a sequence of `replaceOrAddRec` merges into an identifier-unique
cache, the entries sharing a given identifier are exactly the last merged
value for that identifier (or the original entries, when the identifier was
never merged). -/
theorem filter_foldl_replaceOrAddRec {T : Type} (uid : T → JSVal) (calls : List T)
    (v : JSVal) :
    ∀ init : List T, Store.UniqueById uid init →
      (calls.foldl (Store.replaceOrAddRec uid) init).filter (fun x => uid x == v)
        = ((calls.filter (fun c => uid c == v)).getLast?).elim
            (init.filter (fun x => uid x == v)) (fun it => [it]) := by
  induction calls with
  | nil => intro init h; simp
  | cons c cs ih =>
    intro init h
    rw [List.foldl_cons, ih _ (uniqueById_replaceOrAddRec uid c h), List.filter_cons]
    cases hlast : (cs.filter (fun c => uid c == v)).getLast? with
    | some it =>
      have hne : cs.filter (fun c => uid c == v) ≠ [] := by
        intro hc
        rw [hc] at hlast
        simp at hlast
      cases hcv : (uid c == v) with
      | false =>
        simp only [Bool.false_eq_true, if_false, hlast, Option.elim]
      | true =>
        simp only [if_true]
        rw [show c :: cs.filter (fun c => uid c == v)
              = [c] ++ cs.filter (fun c => uid c == v) from rfl,
            List.getLast?_append_of_ne_nil _ hne, hlast]
        rfl
    | none =>
      have hnil : cs.filter (fun c => uid c == v) = [] := List.getLast?_eq_none_iff.1 hlast
      cases hcv : (uid c == v) with
      | false =>
        have hv : v ≠ uid c := by
          intro hh
          simp [hh] at hcv
        simp only [Bool.false_eq_true, if_false, hlast, Option.elim]
        exact filter_replaceOrAddRec_other uid c hv
      | true =>
        have hv : uid c = v := by simpa using hcv
        subst hv
        simp only [if_true, hnil, hlast, Option.elim, List.getLast?_singleton]
        exact filter_replaceOrAddRec_self uid c h

/-- On an identifier-unique cache, merging an item whose identifier is
present at position n replaces the entry at that position. -/
theorem replaceOrAddRec_set {T : Type} (uid : T → JSVal) :
    ∀ (l : List T), Store.UniqueById uid l →
      ∀ (item : T) (n : Nat) (hn : n < l.length),
        uid (l.get ⟨n, hn⟩) = uid item →
        Store.replaceOrAddRec uid l item = l.set n item := by
  intro l
  induction l with
  | nil =>
    intro _ item n hn
    exact absurd hn (by simp)
  | cons x xs ih =>
    intro hu item n hn hget
    rw [Store.UniqueById, List.pairwise_cons] at hu
    obtain ⟨hx, hxs⟩ := hu
    cases n with
    | zero =>
      have hx0 : uid x = uid item := hget
      unfold Store.replaceOrAddRec
      rw [if_pos hx0]
      rfl
    | succ m =>
      have hm : m < xs.length := by simpa using hn
      have hget2 : uid (xs.get ⟨m, hm⟩) = uid item := hget
      have hd : uid x ≠ uid item := by
        intro hc
        exact hx _ (xs.get_mem m hm) (hc.trans hget2.symm)
      unfold Store.replaceOrAddRec
      rw [if_neg hd, ih hxs item m hm hget2]
      rfl

/-- Merging an item whose identifier is absent appends it at the end. -/
theorem replaceOrAddRec_append {T : Type} (uid : T → JSVal) (l : List T) (item : T)
    (h : ∀ x ∈ l, uid x ≠ uid item) :
    Store.replaceOrAddRec uid l item = l ++ [item] := by
  induction l with
  | nil => rfl
  | cons x xs ih =>
    unfold Store.replaceOrAddRec
    rw [if_neg (h x (by simp)), ih (fun y hy => h y (by simp [hy]))]
    rfl

/-- C1: applying any sequence of replaceOrAdd calls to an identifier-unique
cache yields an identifier-unique cache whose entries, for each identifier
merged in the sequence, consist of exactly the last value applied for that
identifier; a single replaceOrAdd replaces in place at the position of the
existing entry with the same identifier, and appends at the end when no such
entry exists. -/
theorem C1_replaceOrAdd_upsert {T : Type} (uid : T → JSVal) (init calls : List T)
    (hinit : Store.UniqueById uid init) :
    Store.UniqueById uid (calls.foldl (Store.replaceOrAdd uid) init)
    ∧ (∀ item ∈ calls,
        (calls.foldl (Store.replaceOrAdd uid) init).filter (fun x => uid x == uid item)
          = ((calls.filter (fun c => uid c == uid item)).getLast?).toList)
    ∧ (∀ (l : List T), Store.UniqueById uid l →
        ∀ (item : T) (n : Nat) (hn : n < l.length),
          uid (l.get ⟨n, hn⟩) = uid item →
          Store.replaceOrAdd uid l item = l.set n item)
    ∧ (∀ (l : List T) (item : T), (∀ x ∈ l, uid x ≠ uid item) →
        Store.replaceOrAdd uid l item = l ++ [item]) := by
  rw [replaceOrAdd_funext uid]
  refine ⟨uniqueById_foldl_replaceOrAddRec uid calls init hinit, ?_, ?_, ?_⟩
  · intro item hmem
    have hin : item ∈ calls.filter (fun c => uid c == uid item) :=
      List.mem_filter.2 ⟨hmem, by simp⟩
    have hne : calls.filter (fun c => uid c == uid item) ≠ [] :=
      List.ne_nil_of_mem hin
    cases hlast : (calls.filter (fun c => uid c == uid item)).getLast? with
    | none => exact absurd (List.getLast?_eq_none_iff.1 hlast) hne
    | some it =>
      rw [filter_foldl_replaceOrAddRec uid calls (uid item) init hinit, hlast]
      rfl
  · exact replaceOrAddRec_set uid
  · exact replaceOrAddRec_append uid

/-- Witness for C1: two concrete merges into a concrete unique cache. -/
theorem C1_witness :
    Store.UniqueById Todo.uniqueId
      ([todoA2].foldl (Store.replaceOrAdd Todo.uniqueId) [todoA, todoB])
    ∧ ([todoA2].foldl (Store.replaceOrAdd Todo.uniqueId) [todoA, todoB]).filter
        (fun x => Todo.uniqueId x == Todo.uniqueId todoA2)
        = (([todoA2].filter (fun c => Todo.uniqueId c == Todo.uniqueId todoA2)).getLast?).toList :=
  ⟨(C1_replaceOrAdd_upsert Todo.uniqueId [todoA, todoB] [todoA2] (by decide)).1,
   (C1_replaceOrAdd_upsert Todo.uniqueId [todoA, todoB] [todoA2] (by decide)).2.1
     todoA2 (by decide)⟩

/-- Cache contents after a successful load response: the response itself
when append=false, the concatenation when append=true; in neither case is
any de-duplication performed. -/
theorem loadResponse_ok_items {T ε : Type} (append : Bool) (res : List T)
    (s : StoreState T ε) :
    (Store.loadResponse append (Except.ok res) s).items
      = if append then s.items ++ res else res := by
  unfold Store.loadResponse
  by_cases ha : append <;> by_cases hr : res.length = 0 <;> simp [ha, hr]

/-- The issue phase of load never changes the cache. -/
theorem load_items_unchanged {T ε : Type} (settings : StoreSettings)
    (filter order : String) (page pageSize : Int) (useCache append : Bool)
    (s : StoreState T ε) :
    (Store.load settings filter order page pageSize useCache append s).items = s.items := by
  unfold Store.load
  split <;> rfl

/-- The issue phase of get never changes the cache. -/
theorem get_items_unchanged {T ε : Type} (settings : StoreSettings) (id : JSVal)
    (s : StoreState T ε) :
    (Store.get settings id s).items = s.items := by
  unfold Store.get
  split <;> rfl

/-- C2 as stated is refuted: a load with append=true concatenates the
response onto a cache that already holds the same identifier, leaving two
entries with uniqueId 1. -/
theorem C2_counterexample :
    Store.UniqueById Todo.uniqueId exState1.items
    ∧ ¬ Store.UniqueById Todo.uniqueId
        ((Store.loadResponse true (Except.ok [todoA2]) exState1).items) := by
  constructor
  · decide
  · decide

/-- C2 amended: every engine operation except the load success path
preserves identifier-uniqueness of the cache; load performs no
de-duplication, so after a successful load the cache is unique exactly when
the response (append=false), or the concatenation of the old cache and the
response (append=true), is itself identifier-unique. -/
theorem C2_uniqueness_invariant {T ε : Type} (uid : T → JSVal)
    (settings : StoreSettings) :
    (∀ s : StoreState T ε, Store.UniqueById uid s.items →
      (∀ item, Store.UniqueById uid ((Store.replaceOrAddM uid item s).items))
      ∧ (∀ val, Store.UniqueById uid ((Store.remove uid val s).items))
      ∧ Store.UniqueById uid ((Store.clearCached s).items)
      ∧ (∀ out : Except ε T, Store.UniqueById uid ((Store.getResponse uid out s).items))
      ∧ (∀ out : Except ε T, Store.UniqueById uid ((Store.addResponse uid out s).items))
      ∧ (∀ out : Except ε T, Store.UniqueById uid ((Store.updateResponse uid out s).items))
      ∧ (∀ (val : T) (out : Except ε Unit),
          Store.UniqueById uid ((Store.deleteResponse uid val out s).items))
      ∧ (∀ (filter order : String) (page pageSize : Int) (useCache append : Bool),
          Store.UniqueById uid
            ((Store.load settings filter order page pageSize useCache append s).items))
      ∧ (∀ id, Store.UniqueById uid ((Store.get settings id s).items))
      ∧ (∀ v, Store.UniqueById uid ((Store.add settings v s).items))
      ∧ (∀ v, Store.UniqueById uid ((Store.update uid settings v s).items))
      ∧ (∀ v, Store.UniqueById uid ((Store.delete uid settings v s).items))
      ∧ (∀ (append : Bool) (e : ε),
          Store.UniqueById uid ((Store.loadResponse append (Except.error e) s).items)))
    ∧ (∀ (s : StoreState T ε) (res : List T),
        Store.UniqueById uid ((Store.loadResponse false (Except.ok res) s).items)
          ↔ Store.UniqueById uid res)
    ∧ (∀ (s : StoreState T ε) (res : List T),
        Store.UniqueById uid ((Store.loadResponse true (Except.ok res) s).items)
          ↔ Store.UniqueById uid (s.items ++ res)) := by
  have hro : ∀ (l : List T) (item : T), Store.UniqueById uid l →
      Store.UniqueById uid (Store.replaceOrAdd uid l item) := by
    intro l item hl
    rw [replaceOrAdd_eq_rec]
    exact uniqueById_replaceOrAddRec uid item hl
  have hfil : ∀ (l : List T) (p : T → Bool), Store.UniqueById uid l →
      Store.UniqueById uid (l.filter p) := by
    intro l p hl
    exact hl.sublist (List.filter_sublist l)
  refine ⟨fun s hs => ?_, fun s res => ?_, fun s res => ?_⟩
  · refine ⟨fun item => hro _ _ hs, fun val => hfil _ _ hs, ?_, ?_, ?_, ?_, ?_, ?_, ?_,
      fun v => hs, fun v => hs, fun v => hs, fun ap e => hs⟩
    · exact List.Pairwise.nil
    · intro out
      cases out with
      | error e => exact hs
      | ok res => exact hro _ _ hs
    · intro out
      cases out with
      | error e => exact hs
      | ok res => exact hro _ _ hs
    · intro out
      cases out with
      | error e => exact hs
      | ok res => exact hro _ _ hs
    · intro val out
      cases out with
      | error e => exact hs
      | ok u => exact hfil _ _ hs
    · intro filter order page pageSize useCache append
      rw [load_items_unchanged]
      exact hs
    · intro id
      rw [get_items_unchanged]
      exact hs
  · rw [loadResponse_ok_items]
    simp
  · rw [loadResponse_ok_items]
    simp

/-- Witness for C2's amended theorem at a concrete unique cache. -/
theorem C2_witness :
    Store.UniqueById Todo.uniqueId
      ((Store.replaceOrAddM Todo.uniqueId todoA2 exState2).items)
    ∧ Store.UniqueById Todo.uniqueId
        ((Store.loadResponse true (Except.ok [{ id := 3, completed := false, text := "c" }])
            exState2).items) :=
  ⟨((C2_uniqueness_invariant Todo.uniqueId exSettings).1 exState2 (by decide)).1 todoA2,
   ((C2_uniqueness_invariant Todo.uniqueId exSettings).2.2 exState2
       [{ id := 3, completed := false, text := "c" }]).2 (by decide)⟩

/-- C3 as stated is refuted: replaceOrAdd mutates the most recently emitted
items array in place before the setter emits a fresh copy, so the sequence
of previously emitted array contents is not preserved — the observer holding
the latest snapshot [todoA] sees it change to [todoA2]. -/
theorem C3_counterexample :
    Store.replaceOrAddEmit Todo.uniqueId todoA2 [[], [todoA]]
        = [[], [todoA2], [todoA2]]
    ∧ ¬ ([[], [todoA]] <+: Store.replaceOrAddEmit Todo.uniqueId todoA2 [[], [todoA]]) := by
  constructor
  · decide
  · decide

/-- C3 amended: load (both append modes), clearCached and remove construct
the new cache contents in a fresh array and leave every previously emitted
snapshot unchanged (the old emission sequence is a prefix of the new one);
replaceOrAdd, however, first mutates the most recently emitted array in
place — element assignment at the existing index, or push — before the
items setter emits a fresh copy of it, so only the snapshots emitted before
the latest one are guaranteed unchanged, the latest becomes the merged
cache, and one new emission is appended. -/
theorem C3_copy_on_write {T : Type} (uid : T → JSVal) :
    (∀ (em : List (List T)) (val : T), em <+: Store.removeEmit uid val em)
    ∧ (∀ em : List (List T), em <+: Store.clearCachedEmit em)
    ∧ (∀ (em : List (List T)) (res : List T), em <+: Store.loadReplaceEmit res em)
    ∧ (∀ (em : List (List T)) (res : List T), em <+: Store.loadAppendEmit res em)
    ∧ (∀ (em : List (List T)) (item : T),
        em.dropLast <+: Store.replaceOrAddEmit uid item em
        ∧ Store.currentItems (Store.replaceOrAddEmit uid item em)
            = Store.replaceOrAdd uid (Store.currentItems em) item
        ∧ (em ≠ [] → (Store.replaceOrAddEmit uid item em).length = em.length + 1)) := by
  refine ⟨fun em val => List.prefix_append em _, fun em => List.prefix_append em _,
    fun em res => List.prefix_append em _, fun em res => List.prefix_append em _,
    fun em item => ?_⟩
  have key : ∃ m : List T, Store.replaceOrAddEmit uid item em
      = em.dropLast ++ [m] ++ [m]
      ∧ m = Store.replaceOrAdd uid (Store.currentItems em) item := by
    unfold Store.replaceOrAddEmit Store.replaceOrAdd Store.emitItems
    cases hfi : (Store.currentItems em).findIdx? (fun i => uid i == uid item) with
    | some idx => exact ⟨_, rfl, rfl⟩
    | none => exact ⟨_, rfl, rfl⟩
  obtain ⟨m, hm, hmval⟩ := key
  refine ⟨?_, ?_, fun hne => ?_⟩
  · rw [hm, List.append_assoc]
    exact List.prefix_append _ _
  · rw [hm, ← hmval]
    unfold Store.currentItems
    rw [List.getLast?_concat]
    rfl
  · rw [hm]
    have h1 : em.dropLast.length = em.length - 1 := List.length_dropLast em
    have h2 : 0 < em.length := List.length_pos.2 hne
    simp only [List.length_append, List.length_singleton, h1]
    omega

/-- Witness for C3's amended theorem at a concrete emission sequence. -/
theorem C3_witness :
    ([[], [todoA]] : List (List Todo)).dropLast
        <+: Store.replaceOrAddEmit Todo.uniqueId todoA2 [[], [todoA]]
    ∧ (Store.replaceOrAddEmit Todo.uniqueId todoA2 [[], [todoA]]).length
        = ([[], [todoA]] : List (List Todo)).length + 1 :=
  ⟨((C3_copy_on_write Todo.uniqueId).2.2.2.2 [[], [todoA]] todoA2).1,
   ((C3_copy_on_write Todo.uniqueId).2.2.2.2 [[], [todoA]] todoA2).2.2 (by decide)⟩

/-- C9: from an empty cache, two addTodo calls assign two distinct, strictly
increasing locally generated identifiers, leave the cache holding exactly
the two entities with those identifiers (length 2), and each call fires one
create-success event carrying the entity with its assigned identifier. -/
theorem C9_addTodo_twice {ε : Type} (t1 t2 : Todo) (s : TodoServiceState ε)
    (h : s.store.items = []) :
    (TodoService.addTodo t2 (TodoService.addTodo t1 s)).store.items
        = [{ t1 with id := s.nextId + 1 }, { t2 with id := s.nextId + 1 + 1 }]
    ∧ (TodoService.addTodo t2 (TodoService.addTodo t1 s)).store.items.length = 2
    ∧ s.nextId + 1 < s.nextId + 1 + 1
    ∧ (TodoService.addTodo t1 s).store.createSuccessEvents
        = s.store.createSuccessEvents ++ [{ t1 with id := s.nextId + 1 }]
    ∧ (TodoService.addTodo t2 (TodoService.addTodo t1 s)).store.createSuccessEvents
        = s.store.createSuccessEvents
            ++ [{ t1 with id := s.nextId + 1 }, { t2 with id := s.nextId + 1 + 1 }] := by
  have h1 : Store.replaceOrAdd Todo.uniqueId s.store.items { t1 with id := s.nextId + 1 }
      = [{ t1 with id := s.nextId + 1 }] := by
    rw [h]
    rfl
  have hne : (Todo.uniqueId { t1 with id := s.nextId + 1 }
      == Todo.uniqueId { t2 with id := s.nextId + 1 + 1 }) = false := by
    simp only [Todo.uniqueId, beq_eq_false_iff_ne, ne_eq, JSVal.num.injEq]
    omega
  have h2 : Store.replaceOrAdd Todo.uniqueId [{ t1 with id := s.nextId + 1 }]
      { t2 with id := s.nextId + 1 + 1 }
      = [{ t1 with id := s.nextId + 1 }, { t2 with id := s.nextId + 1 + 1 }] := by
    unfold Store.replaceOrAdd
    rw [List.findIdx?_cons, hne]
    simp
  refine ⟨?_, ?_, by omega, ?_, ?_⟩ <;>
    simp [TodoService.addTodo, TodoService.getNextId, h1, h2]

/-- Witness for C9 from the initial TodoService state. -/
theorem C9_witness :
    (TodoService.addTodo { id := 0, completed := false, text := "buy milk" }
        (TodoService.addTodo { id := 0, completed := false, text := "buy milk" }
          (TodoService.init : TodoServiceState Unit))).store.items
      = [{ id := 2, completed := false, text := "buy milk" },
         { id := 3, completed := false, text := "buy milk" }]
    ∧ (2 : Int) < 3 :=
  ⟨(C9_addTodo_twice { id := 0, completed := false, text := "buy milk" }
      { id := 0, completed := false, text := "buy milk" }
      (TodoService.init : TodoServiceState Unit) rfl).1,
   by omega⟩
